import Mathlib

/-!
Verification development for the f1-analysis repository.

The repository is a collection of scripts that aggregate Formula 1 lap and
sector timing data.  This file gives a shallow embedding of the aggregation
logic (the process modules of the scripts) and proves or refutes the frozen
claims about it.

Modelling conventions:
* durations (lap times, sector times, qualifying times) are rationals,
  measured in seconds; a missing value (NaN / NaT in the source data) is
  `none` of `Option`;
* a pandas DataFrame of lap records is a `List Lap`; derived tables are
  lists of row structures;
* `sort_values` is modelled by the stable, structurally recursive
  `List.insertionSort` (two-element ties keep their input order, as the
  quicksort used by the dataframe library also does for two tied rows);
* the external telemetry provider (fastf1) is modelled at its interface:
  `pick_drivers` filters by driver, `pick_fastest` returns the lap with the
  minimal valid lap time, `pick_wo_box` drops in-pit laps (an opaque flag on
  the lap record) and `pick_quicklaps` keeps laps satisfying the provider's
  opaque quick-lap predicate (another flag).
-/

namespace F1

/-- A lap record: one row of the laps table of a session, with the columns
the aggregation code reads.  `inPit` is true for laps removed by the
provider's `pick_wo_box` (in/out laps); `quick` is the provider's opaque
quick-lap predicate used by `pick_quicklaps`; `trackStatus` is the set of
track status flag codes of the lap (`none` models a NaN status). -/
structure Lap where
  driver : String
  driverNumber : String
  lapNumber : Nat
  lapTime : Option ℚ
  sector1 : Option ℚ
  sector2 : Option ℚ
  sector3 : Option ℚ
  compound : String
  stint : Nat
  trackStatus : Option (List Nat)
  inPit : Bool
  quick : Bool
deriving DecidableEq

/-- The three sectors; used to index per-sector tables. -/
inductive Sector
  | s1
  | s2
  | s3
deriving DecidableEq

/-- The sector-time column selected by a `Sector`. -/
def Sector.val : Sector → Lap → Option ℚ
  | .s1, l => l.sector1
  | .s2, l => l.sector2
  | .s3, l => l.sector3

/-- Provider interface: `session.laps.pick_drivers(driver)` filters the laps
of one driver. -/
def pick_drivers (laps : List Lap) (d : String) : List Lap :=
  laps.filter (fun l => l.driver = d)

/-- Provider interface: `laps.pick_wo_box()` removes in/out (pit) laps. -/
def pick_wo_box (laps : List Lap) : List Lap :=
  laps.filter (fun l => !l.inPit)

/-- Provider interface: `laps.pick_quicklaps()` keeps laps satisfying the
provider's opaque quick-lap predicate. -/
def pick_quicklaps_provider (laps : List Lap) : List Lap :=
  laps.filter (fun l => l.quick)

/-- Provider interface: `laps.pick_fastest()` returns the lap with the
minimal valid lap time (first such lap on ties), or nothing when the
driver has no valid lap. -/
def pick_fastest (laps : List Lap) : Option Lap :=
  (laps.foldl
    (fun best l =>
      match l.lapTime with
      | none => best
      | some t =>
        match best with
        | none => some (l, t)
        | some (_, bt) => if t < bt then some (l, t) else best)
    none).map (fun p => p.1)

/-- Subtraction lifted to possibly-missing values: NaN propagates.  Used for
`delta = sector_time - fastest_time` where either operand may be NaN. -/
def osub (a b : Option ℚ) : Option ℚ :=
  match a, b with
  | some x, some y => some (x - y)
  | _, _ => none

/-- One step of a running minimum, keeping the first value on ties (the
behaviour of `Series.min()` combined with `idxmin`). -/
def minStep (acc : Option ℚ) (x : ℚ) : Option ℚ :=
  match acc with
  | none => some x
  | some m => if x < m then some x else acc

/-- Minimum of a list of (valid) values, as computed by `Series.min()` with
NaN values skipped by the caller; `none` when the list is empty. -/
def listMinQ (xs : List ℚ) : Option ℚ :=
  xs.foldl minStep none

/-- The valid (non-missing) values of a sector column, i.e. the result of
`laps[sector].dropna()` read as plain values. -/
def sectorValues (laps : List Lap) (sec : Lap → Option ℚ) : List ℚ :=
  laps.filterMap sec

/-- One step of the running minimum that also tracks the compound of the
first lap achieving the minimum. -/
def mcStep (sec : Lap → Option ℚ) (acc : Option (ℚ × String)) (l : Lap) :
    Option (ℚ × String) :=
  match sec l with
  | none => acc
  | some t =>
    match acc with
    | none => some (t, l.compound)
    | some (m, _) => if t < m then some (t, l.compound) else acc

/-- Combined `laps[sector].min()` and `laps.at[laps[sector].idxmin(), "Compound"]`:
the minimal valid value of the sector column together with the tyre compound
of the first lap achieving it; `none` when the column has no valid value. -/
def minWithCompound (laps : List Lap) (sec : Lap → Option ℚ) : Option (ℚ × String) :=
  laps.foldl (mcStep sec) none

/-- Key order used by `sort_values(by=Time)` on a column with possibly
missing values: missing values (NaN) are placed last. -/
def leOT (a b : Option ℚ) : Bool :=
  match a, b with
  | some x, some y => x ≤ y
  | some _, none => true
  | none, some _ => false
  | none, none => true

/-- The key order of `leOT` as a proposition, used to state sortedness of
time columns. -/
def otLE (a b : Option ℚ) : Prop := leOT a b = true

instance : DecidableRel otLE := fun a b => by
  unfold otLE; infer_instance

instance otLE_isTotal : IsTotal (Option ℚ) otLE :=
  ⟨by
    intro a b
    cases a <;> cases b <;> simp [otLE, leOT]
    exact le_total _ _⟩

instance otLE_isTrans : IsTrans (Option ℚ) otLE :=
  ⟨by
    intro a b c hab hbc
    cases a <;> cases b <;> cases c <;> simp_all [otLE, leOT]
    exact le_trans hab hbc⟩

instance otLE_isAntisymm : IsAntisymm (Option ℚ) otLE :=
  ⟨by
    intro a b hab hba
    cases a <;> cases b <;> simp_all [otLE, leOT]
    exact le_antisymm hab hba⟩

/-! ## fastest-lap-sectors/process.py -/

namespace FastestLapSectors

/-- One per-sector entry of the `fastest_sectors` accumulator of
`get_fastest_lap_sectors`: the running minimum (`none` models the initial
`float(inf)`) and the driver holding it (initially the placeholder VER). -/
structure FastestEntry where
  time : Option ℚ
  driver : String
deriving DecidableEq

/-- The `fastest_sectors` dictionary: one `FastestEntry` per sector. -/
structure FastestSectors where
  s1 : FastestEntry
  s2 : FastestEntry
  s3 : FastestEntry
deriving DecidableEq

/-- Entry of `FastestSectors` for a given sector. -/
def FastestSectors.entry : FastestSectors → Sector → FastestEntry
  | fs, .s1 => fs.s1
  | fs, .s2 => fs.s2
  | fs, .s3 => fs.s3

/-- One update step of `get_fastest_lap_sectors`: compare a (possibly NaN)
sector time against the running minimum; the comparison `time < fastest` is
false when `time` is NaN, so a missing value never updates the entry. -/
def updateFastest (cur : FastestEntry) (t : Option ℚ) (d : String) : FastestEntry :=
  match t with
  | none => cur
  | some tv =>
    match cur.time with
    | none => ⟨some tv, d⟩
    | some f => if tv < f then ⟨some tv, d⟩ else cur

/-- The per-driver step of `get_fastest_lap_sectors`: a driver without a
fastest lap is skipped; otherwise all three sector entries are updated from
the sector times of that fastest lap. -/
def flsStep (laps : List Lap) (acc : FastestSectors) (d : String) : FastestSectors :=
  match pick_fastest (pick_drivers laps d) with
  | none => acc
  | some fl =>
    { s1 := updateFastest acc.s1 fl.sector1 d
      s2 := updateFastest acc.s2 fl.sector2 d
      s3 := updateFastest acc.s3 fl.sector3 d }

/-- Embedding of `get_fastest_lap_sectors(session, drivers)`: for each driver
take the fastest lap (skipping drivers without one) and fold its three sector
times into the per-sector running minima. -/
def get_fastest_lap_sectors (laps : List Lap) (drivers : List String) : FastestSectors :=
  drivers.foldl (flsStep laps)
    ⟨⟨none, "VER"⟩, ⟨none, "VER"⟩, ⟨none, "VER"⟩⟩

/-- The valid sector values that feed the sector entry of
`get_fastest_lap_sectors`: per included driver, the sector time of the
fastest lap when present. -/
def flsValues (laps : List Lap) (drivers : List String) (s : Sector) : List ℚ :=
  drivers.filterMap (fun d => (pick_fastest (pick_drivers laps d)).bind s.val)

/-- A row of the per-sector tables built by `get_driver_deltas` and
`get_fastest_sectors`: driver, sector time, delta and tyre compound.  The
time and delta are `Option` because in `get_driver_deltas` the sector time
of a fastest lap may be NaN, which propagates into the delta. -/
structure DeltaRow where
  driver : String
  time : Option ℚ
  delta : Option ℚ
  tyre : String
deriving DecidableEq

/-- Row order used by `sort_values(by=Time)` (missing times last). -/
def rowTimeLE (a b : DeltaRow) : Prop := leOT a.time b.time = true

instance : DecidableRel rowTimeLE := fun a b => by
  unfold rowTimeLE; infer_instance

instance : IsTotal DeltaRow rowTimeLE :=
  ⟨fun a b => otLE_isTotal.total a.time b.time⟩

instance : IsTrans DeltaRow rowTimeLE :=
  ⟨fun a b c hab hbc => otLE_isTrans.trans a.time b.time c.time hab hbc⟩

/-- Embedding of `df.sort_values(by=Time).reset_index(drop=True)`. -/
def sortByTime (rows : List DeltaRow) : List DeltaRow :=
  rows.insertionSort rowTimeLE

/-- The unsorted row list collected by `get_driver_deltas` for one sector:
one row per driver that has a fastest lap, in driver order, with
`delta = sector_time - fastest_time`.  (The subtraction is `osub`: the value
is missing exactly when the sector time of the fastest lap is NaN or the
reference is still the initial infinity, the latter being unreachable when
the reference was computed by `get_fastest_lap_sectors` over the same
drivers.) -/
def deltaRows (laps : List Lap) (drivers : List String) (fast : FastestEntry)
    (sec : Lap → Option ℚ) : List DeltaRow :=
  drivers.filterMap
    (fun d =>
      match pick_fastest (pick_drivers laps d) with
      | none => none
      | some fl =>
        some { driver := d, time := sec fl, delta := osub (sec fl) fast.time
               tyre := fl.compound })

/-- The three per-sector tables returned by `get_driver_deltas` /
`get_fastest_sectors` (keys 1, 2, 3 of the returned dictionary). -/
structure SectorTables where
  t1 : List DeltaRow
  t2 : List DeltaRow
  t3 : List DeltaRow
deriving DecidableEq

/-- Table of `SectorTables` for a given sector. -/
def SectorTables.tbl : SectorTables → Sector → List DeltaRow
  | ts, .s1 => ts.t1
  | ts, .s2 => ts.t2
  | ts, .s3 => ts.t3

/-- Embedding of `get_driver_deltas(session, drivers, fastest_sectors)`. -/
def get_driver_deltas (laps : List Lap) (drivers : List String)
    (fs : FastestSectors) : SectorTables :=
  { t1 := sortByTime (deltaRows laps drivers fs.s1 (Sector.val .s1))
    t2 := sortByTime (deltaRows laps drivers fs.s2 (Sector.val .s2))
    t3 := sortByTime (deltaRows laps drivers fs.s3 (Sector.val .s3)) }

/-- The unsorted row list collected by `get_fastest_sectors` for one sector:
for each driver with laps and at least one valid value in the sector column,
the minimal valid value, its compound, and the delta against the session-wide
minimum `fast` (NaN when that reference is NaN). -/
def fastestSectorRows (laps : List Lap) (drivers : List String)
    (fast : Option ℚ) (sec : Lap → Option ℚ) : List DeltaRow :=
  drivers.filterMap
    (fun d =>
      let dl := pick_drivers laps d
      if dl.isEmpty then none
      else
        match minWithCompound dl sec with
        | none => none
        | some (t, c) =>
          some { driver := d, time := some t, delta := osub (some t) fast
                 tyre := c })

/-- Embedding of `get_fastest_sectors(session_data, drivers)`: the reference
for each sector is the minimum over the whole session laps table, not over
the selected driver set. -/
def get_fastest_sectors (laps : List Lap) (drivers : List String) : SectorTables :=
  let fast1 := listMinQ (sectorValues laps (Sector.val .s1))
  let fast2 := listMinQ (sectorValues laps (Sector.val .s2))
  let fast3 := listMinQ (sectorValues laps (Sector.val .s3))
  { t1 := sortByTime (fastestSectorRows laps drivers fast1 (Sector.val .s1))
    t2 := sortByTime (fastestSectorRows laps drivers fast2 (Sector.val .s2))
    t3 := sortByTime (fastestSectorRows laps drivers fast3 (Sector.val .s3)) }

end FastestLapSectors

/-! ## Qualifying data (gap-to-pole/process.py and
quali-telemetry-comparisons/data_processing.py) -/

/-- A result record: one row of `session.results`, with the columns the
qualifying code reads.  `position` is the final classified position. -/
structure QResult where
  abbreviation : String
  position : Nat
  q1 : Option ℚ
  q2 : Option ℚ
  q3 : Option ℚ
deriving DecidableEq

/-- The phase scan shared verbatim by `get_quali_data` and `get_quali_laps`:
starting from `(None, NoTime)`, walk the given (time, phase) pairs and
overwrite the accumulator whenever the time is not missing. -/
def scanPhases (qs : List (Option ℚ × String)) : Option ℚ × String :=
  qs.foldl
    (fun acc tp =>
      match tp.1 with
      | none => acc
      | some t => (some t, tp.2))
    (none, "NoTime")

/-- The determining lap time and phase of one result row: the phase scan
applied to Q1, Q2, Q3 in that order. -/
def determine (r : QResult) : Option ℚ × String :=
  scanPhases [(r.q1, "Q1"), (r.q2, "Q2"), (r.q3, "Q3")]

/-- Floor of a rational, written out on the numerator and denominator so
that it evaluates inside the kernel (see `ratFloor_eq_floor`). -/
def ratFloor (x : ℚ) : ℤ := x.num / (x.den : ℤ)

/-- Round-half-to-even on rationals, the rounding used by the Python builtin
`round`. -/
def roundHalfEven (x : ℚ) : ℤ :=
  let f := ratFloor x
  let frac := x - f
  if frac < 1 / 2 then f
  else if 1 / 2 < frac then f + 1
  else if f % 2 = 0 then f else f + 1

/-- Embedding of `round(x, 3)`. -/
def round3 (x : ℚ) : ℚ := (roundHalfEven (x * 1000) : ℚ) / 1000

namespace GapToPole

/-- A row of the DataFrame built by `get_quali_data`.  `gapToPole` is
`none` when the computed gap is NaN (pole sitter without a Q3 time). -/
structure QRow where
  driver : String
  lapTime : ℚ
  session : String
  gapToPole : Option ℚ
deriving DecidableEq

/-- Embedding of `get_quali_data(session_data, drivers)`.  Returns `none`
when the results table is empty (`results.iloc[0]` raises).  The pole lap
time is the Q3 time of the first result row; a driver outside the supplied
set is skipped, and a driver whose phase scan yields no time is not
appended at all. -/
def get_quali_data (results : List QResult) (drivers : List String) :
    Option (List QRow) :=
  match results with
  | [] => none
  | r0 :: _ =>
    let pole := r0.q3
    some (results.filterMap
      (fun r =>
        if r.abbreviation ∈ drivers then
          match determine r with
          | (some lt, ph) =>
            some { driver := r.abbreviation, lapTime := lt, session := ph
                   gapToPole := pole.map (fun p => round3 (lt - p)) }
          | (none, _) => none
        else none))

end GapToPole

namespace QualiTelemetry

/-- A value of the dictionary built by `get_quali_laps`: lap time in
seconds (`none` models the Python `None` assigned when no phase had a
time; the initial value is `0.0`), qualifying phase and grid position. -/
structure QLEntry where
  laptime : Option ℚ
  quali_phase : String
  position : Nat
deriving DecidableEq

/-- Assignment `dict[key] = value` for a key already present in the
dictionary (the keys are pre-seeded from the driver list and rows of other
drivers are skipped, so the key is always present when this is used). -/
def setEntry (m : List (String × QLEntry)) (k : String) (v : QLEntry) :
    List (String × QLEntry) :=
  m.map (fun p => if p.1 = k then (k, v) else p)

/-- Dictionary lookup: the entry of the first pair with the given key. -/
def lookupD : List (String × QLEntry) → String → Option QLEntry
  | [], _ => none
  | p :: t, k => if p.1 = k then some p.2 else lookupD t k

/-- The loop body of `get_quali_laps`: a result row of a requested driver
overwrites that driver entry with the phase-scan outcome and the classified
position; rows of other drivers are skipped. -/
def qlStep (drivers : List String) (acc : List (String × QLEntry))
    (row : QResult) : List (String × QLEntry) :=
  if row.abbreviation ∈ drivers then
    setEntry acc row.abbreviation
      ⟨(determine row).1, (determine row).2, row.position⟩
  else acc

/-- Embedding of `get_quali_laps(session_data, drivers)`: a dictionary
seeded with `{laptime: 0.0, quali_phase: empty, position: 0}` for every
requested driver, then updated row by row with `qlStep`.  (The final
comprehension of the source replaces `None` values by a tuple, but the
values are dictionaries and never `None`, so it is the identity.) -/
def get_quali_laps (results : List QResult) (drivers : List String) :
    List (String × QLEntry) :=
  results.foldl (qlStep drivers)
    (drivers.map (fun d => (d, (⟨some 0, "", 0⟩ : QLEntry))))

end QualiTelemetry

/-! ## Race laps (race_pace_strategies/process.py and
laps-comparisons/process.py) -/

/-- A transformed lap row: the original lap record plus the derived numeric
column `LapTime (s)`. -/
structure TLap where
  lap : Lap
  lapTimeS : Option ℚ
deriving DecidableEq

/-- Attaching the derived column:
`laps[LapTime (s)] = laps[LapTime].dt.total_seconds()` (NaT maps to NaN). -/
def attachSeconds (laps : List Lap) : List TLap :=
  laps.map (fun l => ⟨l, l.lapTime⟩)

/-- The per-row body of `fill_missing_laps`, shared (up to an equivalent
spelling of the all-sectors-present test) by race_pace_strategies/process.py
and laps-comparisons/process.py: when the original lap time is missing and
all three sector times are present, set `LapTime (s)` to their sum;
otherwise leave the row unchanged. -/
def fillRow (r : TLap) : TLap :=
  match r.lap.lapTime with
  | some _ => r
  | none =>
    match r.lap.sector1, r.lap.sector2, r.lap.sector3 with
    | some a, some b, some c => { r with lapTimeS := some (a + b + c) }
    | _, _, _ => r

/-- Embedding of `fill_missing_laps(laps)` (both copies): the row loop only
ever writes the `LapTime (s)` cell of qualifying rows, so it is a map. -/
def fill_missing_laps (laps : List TLap) : List TLap :=
  laps.map fillRow

/-- Embedding of the filter
`~laps[TrackStatus].str.contains(r[4567], na=False)`: true when the status
string contains one of the non-representative codes 4, 5, 6, 7; a missing
status yields false (`na=False`), so such laps are kept. -/
def hasBadStatus : Option (List Nat) → Bool
  | none => false
  | some codes => codes.any (fun c => c == 4 || c == 5 || c == 6 || c == 7)

namespace RacePace

/-- A result row as read by `get_laps`: the DataFrame index (driver number)
and the ClassifiedPosition column. -/
structure RResult where
  driverNumber : String
  classifiedPosition : String
deriving DecidableEq

/-- String order used for the group keys of `groupby(Driver)` (the
dataframe library sorts group keys). -/
def strLE (a b : String) : Prop := ¬ b < a

instance : DecidableRel strLE := fun a b => by
  unfold strLE; infer_instance

/-- Mean lap time per driver over the rows of a laps table, one entry per
distinct driver, keys sorted as `groupby` sorts them:
`groupby(Driver)[LapTime (s)].mean()` (missing values skipped). -/
def groupMeans (rows : List TLap) : List (String × ℚ) :=
  (((rows.map (fun r => r.lap.driver)).dedup).insertionSort strLE).map
    (fun d =>
      let ts := rows.filterMap
        (fun r => if r.lap.driver = d then r.lapTimeS else none)
      (d, ts.sum / (ts.length : ℚ)))

/-- Value order for `sort_values()` on a series of means. -/
def sndLE (a b : String × ℚ) : Prop := a.2 ≤ b.2

instance : DecidableRel sndLE := fun a b => by
  unfold sndLE; infer_instance

/-- Embedding of `get_laps(race_data)`: drop in-pit laps, restrict the
results to classified finishers, attach the numeric lap-time column,
backfill missing lap times, drop laps with a non-representative track
status, keep laps of classified drivers with a present lap time, and
derive the mean-lap-time orderings. -/
def get_laps (laps : List Lap) (results : List RResult) :
    List TLap × List String × List (String × ℚ) :=
  let laps0 := pick_wo_box laps
  let race_results := results.filter
    (fun r => !(r.classifiedPosition ∈ ["R", "W", "N", "F", "E", "D"]))
  let transformed1 := fill_missing_laps (attachSeconds laps0)
  let transformed2 := transformed1.filter
    (fun r => !hasBadStatus r.lap.trackStatus)
  let transformed := transformed2.filter
    (fun r =>
      ((race_results.map (fun q => q.driverNumber)).contains r.lap.driverNumber)
        && r.lapTimeS.isSome)
  let means := groupMeans transformed
  let drivers_order := (means.insertionSort sndLE).map (fun p => p.1)
  let drivers_mean_laptimes :=
    ((means.map (fun p => (p.1, round3 p.2))).insertionSort sndLE)
  (transformed, drivers_order, drivers_mean_laptimes)

end RacePace

namespace LapsComparisons

/-- Embedding of `pick_quicklaps(session_data, drivers)`: per requested
driver, the provider quick-lap selection of that driver without in/out
laps, with the numeric lap-time column attached. -/
def pick_quicklaps (laps : List Lap) (drivers : List String) :
    List (String × List TLap) :=
  drivers.map
    (fun d =>
      (d, attachSeconds (pick_quicklaps_provider (pick_wo_box (pick_drivers laps d)))))

/-- Embedding of `pick_racelaps(session_data, drivers)`: per requested
driver, the laps without in/out laps, with the numeric lap-time column,
without laps flagged with a non-representative track status, and with
missing lap times backfilled. -/
def pick_racelaps (laps : List Lap) (drivers : List String) :
    List (String × List TLap) :=
  drivers.map
    (fun d =>
      let rl := attachSeconds (pick_wo_box (pick_drivers laps d))
      let rl := rl.filter (fun r => !hasBadStatus r.lap.trackStatus)
      (d, fill_missing_laps rl))

end LapsComparisons

/-! ## sectors-comparisons/process.py -/

namespace SectorsComparisons

/-- A row of the sector tables of `get_fastest_sector_data`: driver,
fastest sector time, compound, and delta to the session-wide fastest. -/
structure SCRow where
  driver : String
  time : ℚ
  compound : String
  delta : ℚ
deriving DecidableEq

/-- Result of `get_driver_fastest_sector`: either the row dictionary, or
the pair `(None, None)` returned when the driver has no valid time for the
sector (or the reference time is the Python `None`). -/
inductive SectorEntryResult
  | row (r : SCRow)
  | nonePair
deriving DecidableEq

/-- Embedding of `get_fastest_sectors(session)` restricted to one sector:
`laps[sector].dropna().min().total_seconds()`; `none` models the NaN
produced when the session has no valid time in the sector. -/
def sc_fastest_sector (laps : List Lap) (s : Sector) : Option ℚ :=
  listMinQ (sectorValues laps s.val)

/-- Embedding of `get_driver_fastest_sector(session, driver, sector,
fastest_sector_time)`.  The first guard is `sector_times.empty`; the second
is `fastest_sector_time is None` (we conflate the unreachable Python `None`
and a NaN reference into `none`). -/
def get_driver_fastest_sector (laps : List Lap) (driver : String)
    (sec : Lap → Option ℚ) (fastest : Option ℚ) : SectorEntryResult :=
  let driver_laps := pick_drivers laps driver
  match minWithCompound driver_laps sec, fastest with
  | none, _ => .nonePair
  | some _, none => .nonePair
  | some (t, c), some f =>
    .row { driver := driver, time := t, compound := c, delta := t - f }

/-- Embedding of `pd.DataFrame(time_data_list)` followed by
`sort_values(...)`: when every collected entry is a row dictionary the
frame holds those rows; when the list is empty, or holds any `(None, None)`
tuple mixed with (or instead of) row dictionaries, the construction or the
subsequent `sort_values(by=...)` raises (mixed dict/tuple records fail to
convert; an all-tuple or empty frame has no Time column to sort by). -/
def buildDF (entries : List SectorEntryResult) : Except String (List SCRow) :=
  if entries.isEmpty then
    .error "KeyError: Time"
  else if entries.all (fun e => match e with | .row _ => true | .nonePair => false) then
    .ok (entries.filterMap (fun e => match e with | .row r => some r | .nonePair => none))
  else
    .error "record list contains (None, None) tuple entries: frame construction or the sort by Time raises"

/-- Time order on sector rows, for `sort_values(by=Time)`. -/
def scTimeLE (a b : SCRow) : Prop := a.time ≤ b.time

instance : DecidableRel scTimeLE := fun a b => by
  unfold scTimeLE; infer_instance

instance : IsTotal SCRow scTimeLE :=
  ⟨fun a b => le_total a.time b.time⟩

instance : IsTrans SCRow scTimeLE :=
  ⟨fun _ _ _ hab hbc => le_trans hab hbc⟩

/-- Delta order on sector rows, for `sort_values(by=Delta)`. -/
def scDeltaLE (a b : SCRow) : Prop := a.delta ≤ b.delta

instance : DecidableRel scDeltaLE := fun a b => by
  unfold scDeltaLE; infer_instance

instance : IsTotal SCRow scDeltaLE :=
  ⟨fun a b => le_total a.delta b.delta⟩

instance : IsTrans SCRow scDeltaLE :=
  ⟨fun _ _ _ hab hbc => le_trans hab hbc⟩

/-- Embedding of the per-sector body of `get_fastest_sector_data(session,
drivers)`: collect one `get_driver_fastest_sector` entry per requested
driver (appended unconditionally, including `(None, None)` results), build
the frame, and sort it once by time and once by delta. -/
def get_fastest_sector_data (laps : List Lap) (drivers : List String)
    (s : Sector) : Except String (List SCRow × List SCRow) :=
  let fastest := sc_fastest_sector laps s
  let entries := drivers.map
    (fun d => get_driver_fastest_sector laps d s.val fastest)
  (buildDF entries).map
    (fun rows => (rows.insertionSort scTimeLE, rows.insertionSort scDeltaLE))

end SectorsComparisons

/-! ## lap-telemetry-comparison/process.py -/

namespace LapTelemetry

/-- The lap selector of `get_lap`: an integer lap number, a lap-time
string, or a value of any other type. -/
inductive LapInput
  | int (n : Nat)
  | str (s : String)
  | other
deriving DecidableEq

/-- Errors raised by `get_lap`.  `indexError` is the bare positional
indexing error raised by `iloc[0]` on an empty selection (it carries no
message naming the driver or selector); `valueError` and `typeError` are
the explicit raises of the source with their messages; `nanTime` models
the arithmetic error of formatting a NaN lap time. -/
inductive LapError
  | indexError
  | valueError (msg : String)
  | typeError (msg : String)
  | nanTime
deriving DecidableEq

/-- Zero-padding to two digits, as in the format `{sec:02}`. -/
def pad2 (n : Nat) : String :=
  if n < 10 then "0" ++ toString n else toString n

/-- Zero-padding to three digits, as in the format `{millis:03}`. -/
def pad3 (n : Nat) : String :=
  if n < 10 then "00" ++ toString n
  else if n < 100 then "0" ++ toString n
  else toString n

/-- Embedding of `format_laptime(seconds)` for a non-negative time:
minutes, whole seconds and half-even-rounded milliseconds, joined with
colons (the source uses a colon, not a dot, before the milliseconds). -/
def format_laptime (s : ℚ) : String :=
  let minutes := (ratFloor (s / 60)).toNat
  let sec := (ratFloor s).toNat % 60
  let millis := (roundHalfEven ((s - (ratFloor s : ℚ)) * 1000)).toNat
  toString minutes ++ ":" ++ pad2 sec ++ ":" ++ pad3 millis

/-- Splitting a character list on a separator character (the splitting the
timedelta parser performs on the colon and dot separators). -/
def splitOnChar (c : Char) : List Char → List (List Char)
  | [] => [[]]
  | x :: xs =>
    if x = c then [] :: splitOnChar c xs
    else
      match splitOnChar c xs with
      | h :: t => (x :: h) :: t
      | [] => [[x]]

/-- Decimal digit test. -/
def isDigitChar (c : Char) : Bool := 48 ≤ c.toNat && c.toNat ≤ 57

/-- A nonempty all-digit character list parsed as a natural number. -/
def digitsToNat (l : List Char) : Option ℕ :=
  match l with
  | [] => none
  | _ =>
    if l.all isDigitChar then
      some (l.foldl (fun acc c => 10 * acc + (c.toNat - 48)) 0)
    else none

/-- Model of `pd.to_timedelta("00:" + lap_input)` for the documented
selector format minutes:seconds(.fraction): after the fixed hour prefix the
string must be two colon-separated fields, the first a natural number of
minutes, the second seconds with an optional fractional part; anything
else fails to parse (the ValueError caught by the source). -/
def parseLapString (s : String) : Option ℚ :=
  match splitOnChar (':') s.toList with
  | [mChars, secChars] =>
    match digitsToNat mChars, splitOnChar ('.') secChars with
    | some m, [ssChars] =>
      (digitsToNat ssChars).map (fun ss => ((60 * m + ss : ℕ) : ℚ))
    | some m, [ssChars, fracChars] =>
      match digitsToNat ssChars, digitsToNat fracChars with
      | some ss, some f =>
        some (((60 * m + ss : ℕ) : ℚ) + (f : ℚ) / ((10 : ℚ) ^ fracChars.length))
      | _, _ => none
    | _, _ => none
  | _ => none

/-- The per-driver entry written into `car_data` (the telemetry object is
owned by the external provider and not modelled). -/
structure CarEntry where
  laptime : String
  lap_number : Nat
deriving DecidableEq

/-- Assignment `car_data[driver] = entry`: replace in place when the key
exists, append otherwise. -/
def dictInsert (m : List (String × CarEntry)) (k : String) (v : CarEntry) :
    List (String × CarEntry) :=
  if m.any (fun p => p.1 = k) then
    m.map (fun p => if p.1 = k then (k, v) else p)
  else m ++ [(k, v)]

/-- Embedding of `get_lap(session_data, driver, lap_input, car_data)`.
An integer selector picks laps by lap number and reads `iloc[0]` of the
selection, so an empty selection raises the bare positional index error.
A string selector is parsed after prefixing the hour field; failure to
parse raises the invalid-format ValueError, an empty match raises the
no-lap-found ValueError.  Any other selector type raises a TypeError. -/
def get_lap (laps : List Lap) (driver : String) (lap_input : LapInput)
    (car_data : List (String × CarEntry)) :
    Except LapError (List (String × CarEntry)) :=
  let dlaps := pick_drivers laps driver
  match lap_input with
  | .int n =>
    let lap := dlaps.filter (fun l => l.lapNumber = n)
    match lap.head? with
    | none => .error .indexError
    | some l0 =>
      match l0.lapTime with
      | none => .error .nanTime
      | some t =>
        .ok (dictInsert car_data driver ⟨format_laptime t, n⟩)
  | .str s =>
    match parseLapString s with
    | none =>
      .error (.valueError
        ("Invalid lap time format: " ++ s ++ " or lap time doesn\x27t exist."))
    | some t =>
      let lap := dlaps.filter (fun l => l.lapTime = some t)
      match lap.head? with
      | none =>
        .error (.valueError
          ("No lap found matching time " ++ s ++ " for driver " ++ driver))
      | some l0 =>
        .ok (dictInsert car_data driver ⟨format_laptime t, l0.lapNumber⟩)
  | .other =>
    .error (.typeError "lap_input must be int (lap number) or str (lap time)")

end LapTelemetry

/-! ## Concrete fixtures used by witnesses and counterexamples -/

/-- Builds a lap record with representative constant values for the fields
that the claim at hand does not vary. -/
def mkLap (d : String) (num : Nat) (lt s1 s2 s3 : Option ℚ) : Lap :=
  { driver := d, driverNumber := d, lapNumber := num, lapTime := lt
    sector1 := s1, sector2 := s2, sector3 := s3, compound := "SOFT"
    stint := 1, trackStatus := some [1], inPit := false, quick := true }

/-- Three transformed lap rows: one backfillable, one with a missing
sector, one with a present lap time. -/
def lapsFill : List TLap :=
  attachSeconds
    [mkLap ("VER") 1 none (some 20) (some 30) (some 40),
     mkLap ("HAM") 2 none (some 20) none (some 40),
     mkLap ("BOT") 3 (some 95) (some 20) (some 30) (some 40)]

/-- A session with a single VER lap, lap number 1, lap time 80 seconds. -/
def lapsOneVer : List Lap :=
  [mkLap ("VER") 1 (some 80) (some 20) (some 25) (some 35)]

/-- Four VER laps: a clean one, an in-pit one, one under safety car
(track status 4), and a clean non-quick one. -/
def lapsMix : List Lap :=
  [mkLap ("VER") 1 (some 90) (some 20) (some 30) (some 40),
   { mkLap ("VER") 2 (some 91) (some 20) (some 30) (some 41) with inPit := true },
   { mkLap ("VER") 3 (some 92) (some 20) (some 30) (some 42) with
      trackStatus := some [4] },
   { mkLap ("VER") 4 (some 99) (some 25) (some 30) (some 44) with quick := false }]

/-- A results table classifying VER as a finisher. -/
def resultsVer : List RacePace.RResult := [⟨"VER", "1"⟩]

/-- A session where BOT has no valid Sector1Time on any lap while VER
does. -/
def lapsMissingS1 : List Lap :=
  [mkLap ("VER") 1 (some 90) (some 10) (some 30) (some 40),
   mkLap ("BOT") 1 (some 95) none (some 31) (some 41)]

/-- A two-driver session where VER holds the fastest first sector (10)
and BOT is a second slower (11). -/
def lapsTwoS1 : List Lap :=
  [mkLap ("VER") 1 (some 90) (some 10) (some 30) (some 40),
   mkLap ("BOT") 1 (some 95) (some 11) (some 31) (some 41)]

/-- A two-driver session where VER and BOT tie exactly on the first
sector. -/
def lapsTieS1 : List Lap :=
  [mkLap ("VER") 1 (some 90) (some 10) (some 30) (some 40),
   mkLap ("BOT") 1 (some 95) (some 10) (some 31) (some 41)]

end F1

namespace F1

/-! ## Theorems -/

/-- The row transformation of `fill_missing_laps` never touches the
original lap record, only the derived `LapTime (s)` cell. -/
theorem fillRow_lap (r : TLap) : (fillRow r).lap = r.lap := by
  unfold fillRow
  split
  · rfl
  · split <;> rfl

/-- C2: for every lap row passed to `fill_missing_laps`: if the lap time is
missing and all three sector times are present, the derived lap time in
seconds is set to the sum of the three sector times (exactly, hence within
1ms); if the lap time is missing and any sector time is missing, the lap is
left with a missing derived time; laps whose lap time is present are not
altered. -/
theorem C2_fill_backfill_law (input : List TLap)
    (hpre : ∀ r ∈ input, r.lapTimeS = r.lap.lapTime) :
    fill_missing_laps input = input.map fillRow ∧
    ∀ r ∈ input,
      (∀ a b c, r.lap.lapTime = none → r.lap.sector1 = some a →
        r.lap.sector2 = some b → r.lap.sector3 = some c →
        ∃ t, (fillRow r).lapTimeS = some t ∧ |t - (a + b + c)| ≤ 1 / 1000) ∧
      (r.lap.lapTime = none →
        (r.lap.sector1 = none ∨ r.lap.sector2 = none ∨ r.lap.sector3 = none) →
        (fillRow r).lapTimeS = none) ∧
      (∀ t, r.lap.lapTime = some t → fillRow r = r) := by
  refine ⟨rfl, fun r hr => ⟨?_, ?_, ?_⟩⟩
  · intro a b c h0 h1 h2 h3
    refine ⟨a + b + c, ?_, by norm_num⟩
    simp [fillRow, h0, h1, h2, h3]
  · intro h0 hmiss
    have hfix : fillRow r = r := by
      unfold fillRow
      rw [h0]
      rcases hmiss with h | h | h <;> rw [h] <;>
        rcases hs1 : r.lap.sector1 <;> rcases hs2 : r.lap.sector2 <;>
          rcases hs3 : r.lap.sector3 <;> simp_all
    rw [hfix, hpre r hr, h0]
  · intro t ht
    unfold fillRow
    rw [ht]

/-- Witness for C2 on the concrete rows of `lapsFill`. -/
theorem C2_fill_backfill_law_witness :
    (∃ t, (fillRow ⟨mkLap ("VER") 1 none (some 20) (some 30) (some 40), none⟩).lapTimeS
        = some t ∧ |t - (20 + 30 + 40)| ≤ 1 / 1000) ∧
    (fillRow ⟨mkLap ("HAM") 2 none (some 20) none (some 40), none⟩).lapTimeS = none ∧
    fillRow ⟨mkLap ("BOT") 3 (some 95) (some 20) (some 30) (some 40), some 95⟩
      = ⟨mkLap ("BOT") 3 (some 95) (some 20) (some 30) (some 40), some 95⟩ := by
  have h := C2_fill_backfill_law lapsFill (by decide)
  refine ⟨?_, ?_, ?_⟩
  · exact (h.2 _ (by decide)).1 20 30 40 rfl rfl rfl rfl
  · exact (h.2 _ (by decide)).2.1 rfl (Or.inr (Or.inl rfl))
  · exact (h.2 _ (by decide)).2.2 95 rfl

/-- C10: `fill_missing_laps` returns a table with exactly the same rows in
the same order (it is a map over the rows); the only cell it can modify is
the derived `LapTime (s)` cell, and it does so exactly for rows whose
original lap time is missing and whose three sector times are all present;
every other row is returned unchanged. -/
theorem C10_fill_frame (input : List TLap) (i : Nat) (hi : i < input.length) :
    (fill_missing_laps input).length = input.length ∧
    (fill_missing_laps input)[i]? = some (fillRow (input.get ⟨i, hi⟩)) ∧
    (fillRow (input.get ⟨i, hi⟩)).lap = (input.get ⟨i, hi⟩).lap ∧
    (∀ t, (input.get ⟨i, hi⟩).lap.lapTime = some t →
      fillRow (input.get ⟨i, hi⟩) = input.get ⟨i, hi⟩) ∧
    ((input.get ⟨i, hi⟩).lap.lapTime = none →
      ((input.get ⟨i, hi⟩).lap.sector1 = none ∨
        (input.get ⟨i, hi⟩).lap.sector2 = none ∨
        (input.get ⟨i, hi⟩).lap.sector3 = none) →
      fillRow (input.get ⟨i, hi⟩) = input.get ⟨i, hi⟩) ∧
    (∀ a b c, (input.get ⟨i, hi⟩).lap.lapTime = none →
      (input.get ⟨i, hi⟩).lap.sector1 = some a →
      (input.get ⟨i, hi⟩).lap.sector2 = some b →
      (input.get ⟨i, hi⟩).lap.sector3 = some c →
      fillRow (input.get ⟨i, hi⟩)
        = { input.get ⟨i, hi⟩ with lapTimeS := some (a + b + c) }) := by
  refine ⟨by simp [fill_missing_laps], ?_, fillRow_lap _, ?_, ?_, ?_⟩
  · simp [fill_missing_laps, List.getElem?_eq_getElem, hi]
  · intro t ht
    unfold fillRow
    rw [ht]
  · intro h0 hmiss
    unfold fillRow
    rw [h0]
    rcases hmiss with h | h | h <;> rw [h] <;>
      rcases hs1 : (input.get ⟨i, hi⟩).lap.sector1 <;>
        rcases hs2 : (input.get ⟨i, hi⟩).lap.sector2 <;>
          rcases hs3 : (input.get ⟨i, hi⟩).lap.sector3 <;> simp_all
  · intro a b c h0 h1 h2 h3
    generalize hgen : input.get ⟨i, hi⟩ = r at h0 h1 h2 h3 ⊢
    simp [fillRow, h0, h1, h2, h3]

/-- The kernel-evaluable floor used in the embedding agrees with the
mathematical floor on rationals. -/
theorem ratFloor_eq_floor (x : ℚ) : ratFloor x = ⌊x⌋ := (Rat.floor_def).symm

/-- Rounding zero to three decimals gives zero. -/
theorem round3_zero : round3 0 = 0 := by with_unfolding_all decide

/-- The phase scan returns the Q3 entry whenever Q3 is present. -/
theorem determine_eq_q3 (r : QResult) (p : ℚ) (h : r.q3 = some p) :
    determine r = (some p, "Q3") := by
  rcases r with ⟨a, pos, q1, q2, q3⟩
  simp only at h
  subst h
  cases q1 <;> cases q2 <;> rfl

/-- The phase scan returns the NoTime marker and no lap time when all
three phases are missing. -/
theorem determine_all_none (r : QResult) (h1 : r.q1 = none) (h2 : r.q2 = none)
    (h3 : r.q3 = none) : determine r = (none, "NoTime") := by
  rcases r with ⟨a, pos, q1, q2, q3⟩
  simp only at h1 h2 h3
  subst h1; subst h2; subst h3
  rfl

/-- Witness for C10 at the first row of `lapsFill`. -/
theorem C10_fill_frame_witness :
    (fill_missing_laps lapsFill).length = lapsFill.length ∧
    (fill_missing_laps lapsFill)[0]? = some (fillRow (lapsFill.get ⟨0, by decide⟩)) ∧
    (fillRow (lapsFill.get ⟨0, by decide⟩)).lap = (lapsFill.get ⟨0, by decide⟩).lap ∧
    fillRow (lapsFill.get ⟨0, by decide⟩)
      = { lapsFill.get ⟨0, by decide⟩ with lapTimeS := some (20 + 30 + 40) } := by
  have h := C10_fill_frame lapsFill 0 (by decide)
  exact ⟨h.1, h.2.1, h.2.2.1, h.2.2.2.2.2 20 30 40 rfl rfl rfl rfl⟩

/-- C3: the determining lap time and phase are those of the last
qualifying phase among Q1, Q2, Q3 with a non-missing time (later phases
override earlier ones), not the fastest of the three; in particular
Q1=80, Q2=79, Q3=missing yields 79 with phase Q2, and Q1=80, Q2=missing,
Q3=78.5 yields 78.5 with phase Q3 (and a Q3 slower than Q2 still wins).
The last two conjuncts trace the same scan through the two embedded
source functions. -/
theorem C3_determining_lap :
    (∀ r : QResult,
      determine r =
        match r.q3 with
        | some t => (some t, "Q3")
        | none =>
          match r.q2 with
          | some t => (some t, "Q2")
          | none =>
            match r.q1 with
            | some t => (some t, "Q1")
            | none => (none, "NoTime")) ∧
    determine ⟨"A", 1, some 80, some 79, none⟩ = (some 79, "Q2") ∧
    determine ⟨"B", 2, some 80, none, some (157 / 2)⟩ = (some (157 / 2), "Q3") ∧
    determine ⟨"C", 3, some 80, some 75, some 78⟩ = (some 78, "Q3") ∧
    QualiTelemetry.lookupD
        (QualiTelemetry.get_quali_laps [⟨"LEC", 3, some 80, some 79, none⟩] [("LEC")])
        ("LEC") = some ⟨some 79, "Q2", 3⟩ ∧
    GapToPole.get_quali_data
        [⟨"MAX", 1, some 81, some 80, some 78⟩, ⟨"LEC", 2, some 80, none, some (157 / 2)⟩]
        [("MAX"), ("LEC")]
      = some [⟨"MAX", 78, "Q3", some 0⟩, ⟨"LEC", 157 / 2, "Q3", some (1 / 2)⟩] := by
  refine ⟨?_, rfl, rfl, rfl, by decide, by with_unfolding_all decide⟩
  intro r
  rcases r with ⟨a, pos, q1, q2, q3⟩
  cases q1 <;> cases q2 <;> cases q3 <;> rfl

/-- C4: in `get_quali_data`, when the pole sitter (first result row) has a
Q3 time, every emitted row carries a gap equal to its determining lap time
minus the pole Q3 time rounded to three decimals, and the pole sitter
(when requested) gets a row with gap exactly 0. -/
theorem C4_gap_to_pole (results : List QResult) (drivers : List String)
    (r0 : QResult) (rest : List QResult) (p : ℚ)
    (hres : results = r0 :: rest) (hq3 : r0.q3 = some p)
    (hd : r0.abbreviation ∈ drivers) :
    ∃ out, GapToPole.get_quali_data results drivers = some out ∧
      (∀ row ∈ out, row.gapToPole = some (round3 (row.lapTime - p))) ∧
      ∃ row ∈ out, row.driver = r0.abbreviation ∧ row.gapToPole = some 0 := by
  subst hres
  refine ⟨_, rfl, ?_, ?_⟩
  · intro row hrow
    rw [List.mem_filterMap] at hrow
    obtain ⟨r, hr, hf⟩ := hrow
    split at hf
    · split at hf
      · rename_i lt ph heq
        rw [hq3] at hf
        simp only [Option.map_some'] at hf
        cases hf
        rfl
      · cases hf
    · cases hf
  · refine ⟨⟨r0.abbreviation, p, "Q3", some 0⟩, ?_, rfl, rfl⟩
    rw [List.mem_filterMap]
    refine ⟨r0, List.mem_cons_self r0 rest, ?_⟩
    simp only [if_pos hd, determine_eq_q3 r0 p hq3, hq3]
    simp [sub_self, round3_zero]

/-- Witness for C4 on a two-row results table. -/
theorem C4_gap_to_pole_witness :
    ∃ out, GapToPole.get_quali_data
        [⟨"MAX", 1, some 81, some 80, some 78⟩, ⟨"LEC", 2, some 80, some 79, none⟩]
        [("MAX"), ("LEC")] = some out ∧
      (∀ row ∈ out, row.gapToPole = some (round3 (row.lapTime - 78))) ∧
      ∃ row ∈ out, row.driver = "MAX" ∧ row.gapToPole = some 0 :=
  C4_gap_to_pole _ _ ⟨"MAX", 1, some 81, some 80, some 78⟩
    [⟨"LEC", 2, some 80, some 79, none⟩] 78 rfl rfl (by decide)

/-- Counterexample to C7 as stated: in `get_quali_data`, a requested driver
whose three phase times are all missing is dropped from the output
entirely; no row (in particular no row with the NoTime phase marker)
records the driver. -/
theorem C7_counterexample :
    GapToPole.get_quali_data
        [⟨"MAX", 1, some 81, some 80, some 78⟩, ⟨"ZHO", 2, none, none, none⟩]
        [("MAX"), ("ZHO")]
      = some [⟨"MAX", 78, "Q3", some 0⟩] ∧
    ∀ row ∈ [(⟨"MAX", 78, "Q3", some 0⟩ : GapToPole.QRow)], row.driver ≠ "ZHO" := by
  with_unfolding_all decide

/-- Updating a key other than the looked-up one does not change a lookup. -/
theorem lookupD_setEntry_ne (m : List (String × QualiTelemetry.QLEntry))
    (k q : String) (v : QualiTelemetry.QLEntry) (hne : k ≠ q) :
    QualiTelemetry.lookupD (QualiTelemetry.setEntry m k v) q
      = QualiTelemetry.lookupD m q := by
  induction m with
  | nil => rfl
  | cons p t ih =>
    by_cases hp : p.1 = k
    · simp [QualiTelemetry.setEntry, QualiTelemetry.lookupD, hp, hne]
      simpa [QualiTelemetry.setEntry] using ih
    · by_cases hq : p.1 = q <;>
        simp_all [QualiTelemetry.setEntry, QualiTelemetry.lookupD]

/-- Updating a present key makes the lookup return the new value. -/
theorem lookupD_setEntry_self (m : List (String × QualiTelemetry.QLEntry))
    (k : String) (v : QualiTelemetry.QLEntry)
    (h : (QualiTelemetry.lookupD m k).isSome) :
    QualiTelemetry.lookupD (QualiTelemetry.setEntry m k v) k = some v := by
  induction m with
  | nil => simp [QualiTelemetry.lookupD] at h
  | cons p t ih =>
    by_cases hp : p.1 = k
    · simp [QualiTelemetry.setEntry, QualiTelemetry.lookupD, hp]
    · simp only [QualiTelemetry.lookupD, hp, if_false] at h
      simp only [QualiTelemetry.setEntry, List.map_cons] at *
      simp only [QualiTelemetry.lookupD, hp, if_neg hp]
      simpa [QualiTelemetry.setEntry, hp] using ih h

/-- Updates preserve presence of any key. -/
theorem lookupD_setEntry_isSome (m : List (String × QualiTelemetry.QLEntry))
    (k q : String) (v : QualiTelemetry.QLEntry) :
    (QualiTelemetry.lookupD (QualiTelemetry.setEntry m k v) q).isSome
      = (QualiTelemetry.lookupD m q).isSome := by
  by_cases hkq : k = q
  · subst hkq
    induction m with
    | nil => rfl
    | cons p t ih =>
      by_cases hp : p.1 = k <;>
        simp_all [QualiTelemetry.setEntry, QualiTelemetry.lookupD]
  · rw [lookupD_setEntry_ne m k q v hkq]

/-- Result rows of other drivers never change a driver entry. -/
theorem ql_fold_preserve (drivers : List String) (d : String) :
    ∀ (rows : List QResult) (acc : List (String × QualiTelemetry.QLEntry)),
      (∀ r ∈ rows, r.abbreviation ≠ d) →
      QualiTelemetry.lookupD (rows.foldl (QualiTelemetry.qlStep drivers) acc) d
        = QualiTelemetry.lookupD acc d := by
  intro rows
  induction rows with
  | nil => intro acc _; rfl
  | cons r rs ih =>
    intro acc hall
    rw [List.foldl_cons, ih _ (fun r2 h2 => hall r2 (List.mem_cons_of_mem r h2))]
    unfold QualiTelemetry.qlStep
    split
    · exact lookupD_setEntry_ne acc r.abbreviation d _
        (hall r (List.mem_cons_self r rs))
    · rfl

/-- After folding rows that contain at least one row of the driver and
whose rows for the driver are all phase-less, the driver entry holds no
lap time and the NoTime marker. -/
theorem ql_fold_noTime (drivers : List String) (d : String) (hd : d ∈ drivers) :
    ∀ (rows : List QResult) (acc : List (String × QualiTelemetry.QLEntry)),
      (∃ r ∈ rows, r.abbreviation = d) →
      (∀ r ∈ rows, r.abbreviation = d →
        r.q1 = none ∧ r.q2 = none ∧ r.q3 = none) →
      (QualiTelemetry.lookupD acc d).isSome →
      ∃ e, QualiTelemetry.lookupD
          (rows.foldl (QualiTelemetry.qlStep drivers) acc) d = some e ∧
        e.laptime = none ∧ e.quali_phase = "NoTime" := by
  intro rows
  induction rows with
  | nil =>
    intro acc hex _ _
    simp at hex
  | cons r rs ih =>
    intro acc hex hall hsome
    have hsome2 : (QualiTelemetry.lookupD
        (QualiTelemetry.qlStep drivers acc r) d).isSome := by
      unfold QualiTelemetry.qlStep
      split
      · rw [lookupD_setEntry_isSome]; exact hsome
      · exact hsome
    rw [List.foldl_cons]
    by_cases hex2 : ∃ r2 ∈ rs, r2.abbreviation = d
    · exact ih _ hex2
        (fun r2 h2 hd2 => hall r2 (List.mem_cons_of_mem r h2) hd2) hsome2
    · have hrd : r.abbreviation = d := by
        obtain ⟨r2, hr2mem, hr2⟩ := hex
        rcases List.mem_cons.1 hr2mem with h | h
        · exact h ▸ hr2
        · exact absurd ⟨r2, h, hr2⟩ hex2
      have hnone := hall r (List.mem_cons_self r rs) hrd
      have hdet : determine r = (none, "NoTime") :=
        determine_all_none r hnone.1 hnone.2.1 hnone.2.2
      push_neg at hex2
      rw [ql_fold_preserve drivers d rs _ hex2]
      unfold QualiTelemetry.qlStep
      rw [hrd, if_pos hd, hdet]
      exact ⟨_, lookupD_setEntry_self acc d _ hsome, rfl, rfl⟩

/-- A seeded dictionary holds every requested driver. -/
theorem lookupD_init (drivers : List String) (d : String) (hd : d ∈ drivers)
    (e0 : QualiTelemetry.QLEntry) :
    QualiTelemetry.lookupD (drivers.map (fun x => (x, e0))) d = some e0 := by
  induction drivers with
  | nil => simp at hd
  | cons a ds ih =>
    by_cases ha : a = d
    · simp [QualiTelemetry.lookupD, ha]
    · rcases List.mem_cons.1 hd with h | h
      · exact absurd h.symm ha
      · simpa [QualiTelemetry.lookupD, ha] using ih h

/-- C7 as amended: a requested driver whose Q1, Q2 and Q3 times are all
missing is handled differently by the two SelectQualifyingLap variants:
`get_quali_data` omits the driver from its output entirely (so the driver
is excluded from delta computation, but no NoTime row is emitted), while
`get_quali_laps` records the driver with the NoTime phase marker and no
lap time (and computes no delta at all). -/
theorem C7_amended :
    (∀ (results : List QResult) (drivers : List String) (d : String),
      d ∈ drivers →
      (∀ r ∈ results, r.abbreviation = d →
        r.q1 = none ∧ r.q2 = none ∧ r.q3 = none) →
      ∀ out, GapToPole.get_quali_data results drivers = some out →
        ∀ row ∈ out, row.driver ≠ d) ∧
    (∀ (results : List QResult) (drivers : List String) (d : String),
      d ∈ drivers →
      (∃ r ∈ results, r.abbreviation = d) →
      (∀ r ∈ results, r.abbreviation = d →
        r.q1 = none ∧ r.q2 = none ∧ r.q3 = none) →
      ∃ e, QualiTelemetry.lookupD
          (QualiTelemetry.get_quali_laps results drivers) d = some e ∧
        e.laptime = none ∧ e.quali_phase = "NoTime") := by
  constructor
  · intro results drivers d _ hall out hout row hrow hcontra
    cases results with
    | nil => simp [GapToPole.get_quali_data] at hout
    | cons r0 rest =>
      simp only [GapToPole.get_quali_data, Option.some_inj] at hout
      subst hout
      rw [List.mem_filterMap] at hrow
      obtain ⟨r, hr, hf⟩ := hrow
      split at hf
      · split at hf
        · rename_i hin lt ph heq
          have hrd : r.abbreviation = d := by
            cases hf
            exact hcontra
          have hnone := hall r hr hrd
          rw [determine_all_none r hnone.1 hnone.2.1 hnone.2.2] at heq
          cases heq
        · cases hf
      · cases hf
  · intro results drivers d hd hex hall
    refine ql_fold_noTime drivers d hd results _ hex hall ?_
    rw [lookupD_init drivers d hd]
    rfl

/-- Witness for C7 as amended, on a results table where ZHO set no time in
any phase. -/
theorem C7_amended_witness :
    (∀ out, GapToPole.get_quali_data
        [⟨"MAX", 1, some 81, some 80, some 78⟩, ⟨"ZHO", 2, none, none, none⟩]
        [("MAX"), ("ZHO")] = some out →
      ∀ row ∈ out, row.driver ≠ "ZHO") ∧
    ∃ e, QualiTelemetry.lookupD
        (QualiTelemetry.get_quali_laps
          [⟨"MAX", 1, some 81, some 80, some 78⟩, ⟨"ZHO", 2, none, none, none⟩]
          [("MAX"), ("ZHO")]) ("ZHO") = some e ∧
      e.laptime = none ∧ e.quali_phase = "NoTime" := by
  constructor
  · exact fun out hout =>
      C7_amended.1 _ _ ("ZHO") (by decide) (by decide) out hout
  · exact C7_amended.2 _ _ ("ZHO") (by decide)
      ⟨⟨"ZHO", 2, none, none, none⟩, by decide, rfl⟩ (by decide)

/-- Counterexample to C6 as stated: an integer lap-number selector that
matches no lap raises the bare positional index error of the table
library, a hard error carrying no message naming the driver or selector
(the constructor has no message field), not the descriptive-message error
the claim describes; and a string selector that fails to parse raises a
ValueError, not a type error. -/
theorem C6_counterexample :
    LapTelemetry.get_lap lapsOneVer ("VER") (.int 5) []
      = .error .indexError ∧
    LapTelemetry.get_lap lapsOneVer ("VER") (.str ("xx")) []
      = .error (.valueError
          ("Invalid lap time format: xx or lap time doesn\x27t exist.")) :=
  ⟨by with_unfolding_all rfl, by with_unfolding_all rfl⟩

/-- C6 as amended: every failing selector of `get_lap` produces a hard
error and never a silent empty result, but the error kinds differ: an
integer selector with no matching lap raises the table library positional
index error (without a message naming the driver or selector); a parseable
lap-time string with no matching lap raises the descriptive no-lap-found
ValueError naming the selector and the driver; an unparseable string
raises the invalid-format ValueError; a selector of any other type raises
the TypeError. -/
theorem C6_amended (laps : List Lap) (driver : String)
    (cd : List (String × LapTelemetry.CarEntry)) :
    (∀ n : Nat, (∀ l ∈ laps, l.driver = driver → l.lapNumber ≠ n) →
      LapTelemetry.get_lap laps driver (.int n) cd = .error .indexError) ∧
    (∀ s t, LapTelemetry.parseLapString s = some t →
      (∀ l ∈ laps, l.driver = driver → l.lapTime ≠ some t) →
      LapTelemetry.get_lap laps driver (.str s) cd
        = .error (.valueError
            ("No lap found matching time " ++ s ++ " for driver " ++ driver))) ∧
    (∀ s, LapTelemetry.parseLapString s = none →
      LapTelemetry.get_lap laps driver (.str s) cd
        = .error (.valueError
            ("Invalid lap time format: " ++ s ++ " or lap time doesn\x27t exist."))) ∧
    LapTelemetry.get_lap laps driver .other cd
      = .error (.typeError "lap_input must be int (lap number) or str (lap time)") := by
  refine ⟨?_, ?_, ?_, rfl⟩
  · intro n h
    have hnil : List.filter (fun l => decide (l.lapNumber = n))
        (pick_drivers laps driver) = [] := by
      rw [List.filter_eq_nil_iff]
      intro l hl
      have hmem := List.mem_filter.1 hl
      simpa using h l hmem.1 (by simpa using hmem.2)
    simp [LapTelemetry.get_lap, hnil]
  · intro s t hparse h
    have hnil : List.filter (fun l => decide (l.lapTime = some t))
        (pick_drivers laps driver) = [] := by
      rw [List.filter_eq_nil_iff]
      intro l hl
      have hmem := List.mem_filter.1 hl
      simpa using h l hmem.1 (by simpa using hmem.2)
    simp [LapTelemetry.get_lap, hparse, hnil]
  · intro s hparse
    simp [LapTelemetry.get_lap, hparse]

/-- Witness for C6 on the single-lap session `lapsOneVer`. -/
theorem C6_amended_witness :
    LapTelemetry.get_lap lapsOneVer ("VER") (.int 5) [] = .error .indexError ∧
    LapTelemetry.get_lap lapsOneVer ("VER") (.str ("1:23")) []
      = .error (.valueError
          ("No lap found matching time 1:23 for driver VER")) ∧
    LapTelemetry.get_lap lapsOneVer ("VER") (.str ("garbage")) []
      = .error (.valueError
          ("Invalid lap time format: garbage or lap time doesn\x27t exist.")) ∧
    LapTelemetry.get_lap lapsOneVer ("VER") .other []
      = .error (.typeError "lap_input must be int (lap number) or str (lap time)") := by
  have h := C6_amended lapsOneVer ("VER") []
  refine ⟨h.1 5 (by decide), ?_, h.2.2.1 ("garbage") (by decide), h.2.2.2⟩
  have h2 := h.2.1 ("1:23") (83)
    (by with_unfolding_all decide) (by with_unfolding_all decide)
  exact h2.trans (by with_unfolding_all rfl)

/-- Rows produced by `attachSeconds` wrap laps of the input table. -/
theorem mem_attachSeconds {laps : List Lap} {r : TLap}
    (h : r ∈ attachSeconds laps) : r.lap ∈ laps := by
  rcases List.mem_map.1 h with ⟨l, hl, rfl⟩
  exact hl

/-- Rows of `fill_missing_laps` carry the lap record of an input row. -/
theorem mem_fill_missing {rs : List TLap} {r : TLap}
    (h : r ∈ fill_missing_laps rs) : ∃ r0 ∈ rs, r.lap = r0.lap := by
  rcases List.mem_map.1 h with ⟨r0, h0, rfl⟩
  exact ⟨r0, h0, fillRow_lap r0⟩

/-- C5: `pick_racelaps` emits only laps that are not in-pit laps and whose
track status contains none of the non-representative codes 4, 5, 6, 7;
`pick_quicklaps` emits only laps that are not in-pit laps and that satisfy
the provider quick-lap predicate; and the cleaned laps table of `get_laps`
also contains only non-pit laps free of non-representative codes. -/
theorem C5_lap_filters :
    (∀ (laps : List Lap) (drivers : List String) (d : String)
        (rows : List TLap),
      (d, rows) ∈ LapsComparisons.pick_racelaps laps drivers →
      ∀ r ∈ rows,
        r.lap.inPit = false ∧ hasBadStatus r.lap.trackStatus = false) ∧
    (∀ (laps : List Lap) (drivers : List String) (d : String)
        (rows : List TLap),
      (d, rows) ∈ LapsComparisons.pick_quicklaps laps drivers →
      ∀ r ∈ rows, r.lap.inPit = false ∧ r.lap.quick = true) ∧
    (∀ (laps : List Lap) (results : List RacePace.RResult),
      ∀ r ∈ (RacePace.get_laps laps results).1,
        r.lap.inPit = false ∧ hasBadStatus r.lap.trackStatus = false) := by
  refine ⟨?_, ?_, ?_⟩
  · intro laps drivers d rows hmem r hr
    rcases List.mem_map.1 hmem with ⟨d0, _, heq⟩
    rw [Prod.mk.injEq] at heq
    obtain ⟨rfl, rfl⟩ := heq
    rcases mem_fill_missing hr with ⟨r0, hr0, hlap⟩
    have h1 := List.mem_filter.1 hr0
    have h2 := List.mem_filter.1 (mem_attachSeconds h1.1)
    rw [hlap]
    exact ⟨by simpa using h2.2, by simpa using h1.2⟩
  · intro laps drivers d rows hmem r hr
    rcases List.mem_map.1 hmem with ⟨d0, _, heq⟩
    rw [Prod.mk.injEq] at heq
    obtain ⟨rfl, rfl⟩ := heq
    have h1 : r.lap ∈ pick_quicklaps_provider (pick_wo_box (pick_drivers laps d0)) :=
      mem_attachSeconds hr
    have h2 := List.mem_filter.1 h1
    have h3 := List.mem_filter.1 h2.1
    exact ⟨by simpa using h3.2, by simpa using h2.2⟩
  · intro laps results r hr
    simp only [RacePace.get_laps] at hr
    have ha := List.mem_filter.1 hr
    have hb := List.mem_filter.1 ha.1
    rcases mem_fill_missing hb.1 with ⟨r0, hr0, hlap⟩
    have hc := List.mem_filter.1 (mem_attachSeconds hr0)
    constructor
    · rw [hlap]
      simpa using hc.2
    · simpa using hb.2

/-- Witness for C5 on the mixed session `lapsMix`: the clean lap survives
each selection and satisfies the filter guarantees there. -/
theorem C5_lap_filters_witness :
    ((⟨mkLap ("VER") 1 (some 90) (some 20) (some 30) (some 40), some 90⟩ :
        TLap).lap.inPit = false ∧
      hasBadStatus (⟨mkLap ("VER") 1 (some 90) (some 20) (some 30) (some 40),
        some 90⟩ : TLap).lap.trackStatus = false) ∧
    ((⟨mkLap ("VER") 1 (some 90) (some 20) (some 30) (some 40), some 90⟩ :
        TLap).lap.inPit = false ∧
      (⟨mkLap ("VER") 1 (some 90) (some 20) (some 30) (some 40), some 90⟩ :
        TLap).lap.quick = true) ∧
    ((⟨mkLap ("VER") 1 (some 90) (some 20) (some 30) (some 40), some 90⟩ :
        TLap).lap.inPit = false ∧
      hasBadStatus (⟨mkLap ("VER") 1 (some 90) (some 20) (some 30) (some 40),
        some 90⟩ : TLap).lap.trackStatus = false) := by
  refine ⟨?_, ?_, ?_⟩
  · exact C5_lap_filters.1 lapsMix [("VER")] ("VER")
      (LapsComparisons.pick_racelaps lapsMix [("VER")]).head!.2
      (by decide) _ (by decide)
  · exact C5_lap_filters.2.1 lapsMix [("VER")] ("VER")
      (LapsComparisons.pick_quicklaps lapsMix [("VER")]).head!.2
      (by decide) _ (by decide)
  · exact C5_lap_filters.2.2 lapsMix resultsVer _ (by decide)

/-- Folding `minStep` from a seeded accumulator yields a value of the list
or the seed, bounded above by the seed and by every list element. -/
theorem foldl_minStep_spec :
    ∀ (xs : List ℚ) (m : ℚ),
      ∃ r, xs.foldl minStep (some m) = some r ∧ (r = m ∨ r ∈ xs) ∧ r ≤ m ∧
        ∀ x ∈ xs, r ≤ x := by
  intro xs
  induction xs with
  | nil => exact fun m => ⟨m, rfl, Or.inl rfl, le_refl m, by simp⟩
  | cons x xs ih =>
    intro m
    by_cases hx : x < m
    · have hstep : minStep (some m) x = some x := by simp [minStep, hx]
      obtain ⟨r, heq, hor, hle, hall⟩ := ih x
      refine ⟨r, by rw [List.foldl_cons, hstep]; exact heq, ?_,
        hle.trans hx.le, ?_⟩
      · rcases hor with h | h
        · exact Or.inr (h ▸ List.mem_cons_self x xs)
        · exact Or.inr (List.mem_cons_of_mem x h)
      · intro y hy
        rcases List.mem_cons.1 hy with rfl | hmem
        · exact hle
        · exact hall y hmem
    · have hstep : minStep (some m) x = some m := by simp [minStep, hx]
      obtain ⟨r, heq, hor, hle, hall⟩ := ih m
      refine ⟨r, by rw [List.foldl_cons, hstep]; exact heq, ?_, hle, ?_⟩
      · rcases hor with h | h
        · exact Or.inl h
        · exact Or.inr (List.mem_cons_of_mem x h)
      · intro y hy
        rcases List.mem_cons.1 hy with rfl | hmem
        · exact hle.trans (not_lt.1 hx)
        · exact hall y hmem

/-- A computed list minimum is a member of the list and a lower bound. -/
theorem listMinQ_spec {xs : List ℚ} {m : ℚ} (h : listMinQ xs = some m) :
    m ∈ xs ∧ ∀ x ∈ xs, m ≤ x := by
  cases xs with
  | nil => simp [listMinQ] at h
  | cons x rest =>
    obtain ⟨r, heq, hor, hle, hall⟩ := foldl_minStep_spec rest x
    have hx : listMinQ (x :: rest) = some r := by
      simp only [listMinQ, List.foldl_cons]
      exact heq
    rw [hx] at h
    cases h
    constructor
    · rcases hor with h | h
      · exact h ▸ List.mem_cons_self x rest
      · exact List.mem_cons_of_mem x h
    · intro y hy
      rcases List.mem_cons.1 hy with rfl | hmem
      · exact hle
      · exact hall y hmem

/-- A nonempty list has a minimum. -/
theorem listMinQ_ne_nil {xs : List ℚ} (h : xs ≠ []) :
    ∃ m, listMinQ xs = some m ∧ m ∈ xs ∧ ∀ x ∈ xs, m ≤ x := by
  cases xs with
  | nil => exact absurd rfl h
  | cons x rest =>
    obtain ⟨r, heq, hor, hle, hall⟩ := foldl_minStep_spec rest x
    refine ⟨r, by simpa only [listMinQ, List.foldl_cons] using heq, ?_, ?_⟩
    · rcases hor with h2 | h2
      · exact h2 ▸ List.mem_cons_self x rest
      · exact List.mem_cons_of_mem x h2
    · intro y hy
      rcases List.mem_cons.1 hy with rfl | hmem
      · exact hle
      · exact hall y hmem

/-- The value component of the compound-tracking minimum fold is the plain
minimum fold over the valid values. -/
theorem foldl_mcStep_fst (sec : Lap → Option ℚ) :
    ∀ (laps : List Lap) (acc : Option (ℚ × String)),
      (laps.foldl (mcStep sec) acc).map (fun p => p.1)
        = (laps.filterMap sec).foldl minStep (acc.map (fun p => p.1)) := by
  intro laps
  induction laps with
  | nil => intro acc; rfl
  | cons l ls ih =>
    intro acc
    rw [List.foldl_cons, List.filterMap_cons]
    cases hsec : sec l with
    | none =>
      have hstep : mcStep sec acc l = acc := by simp [mcStep, hsec]
      rw [hstep]
      exact ih acc
    | some t =>
      rw [ih (mcStep sec acc l), List.foldl_cons]
      congr 1
      cases acc with
      | none => simp [mcStep, hsec, minStep]
      | some p =>
        rcases p with ⟨m, c⟩
        by_cases ht : t < m <;> simp [mcStep, hsec, minStep, ht]

/-- The time component of `minWithCompound` is the column minimum. -/
theorem minWithCompound_fst (laps : List Lap) (sec : Lap → Option ℚ) :
    (minWithCompound laps sec).map (fun p => p.1)
      = listMinQ (sectorValues laps sec) := by
  simpa [minWithCompound, listMinQ, sectorValues] using
    foldl_mcStep_fst sec laps none

/-- Updating a fastest entry with a missing value keeps it unchanged. -/
theorem updateFastest_none (cur : FastestLapSectors.FastestEntry) (d : String) :
    FastestLapSectors.updateFastest cur none d = cur := rfl

/-- Updating a fastest entry with a present value advances the running
minimum by one `minStep`. -/
theorem updateFastest_some_time (cur : FastestLapSectors.FastestEntry)
    (v : ℚ) (d : String) :
    (FastestLapSectors.updateFastest cur (some v) d).time = minStep cur.time v := by
  cases hct : cur.time with
  | none => simp [FastestLapSectors.updateFastest, hct, minStep]
  | some f =>
    by_cases h : v < f <;>
      simp [FastestLapSectors.updateFastest, hct, minStep, h]

/-- The per-sector entry written by one `flsStep` for a driver with a
fastest lap. -/
theorem flsStep_entry_some (laps : List Lap)
    (acc : FastestLapSectors.FastestSectors) (d : String) (s : Sector)
    (fl : Lap) (hpf : pick_fastest (pick_drivers laps d) = some fl) :
    (FastestLapSectors.flsStep laps acc d).entry s
      = FastestLapSectors.updateFastest (acc.entry s) (s.val fl) d := by
  unfold FastestLapSectors.flsStep
  rw [hpf]
  cases s <;> rfl

/-- The sector entry of the `get_fastest_lap_sectors` fold tracks the
minimum fold over the fastest-lap sector values of the drivers. -/
theorem foldl_flsStep_time (laps : List Lap) (s : Sector) :
    ∀ (drivers : List String) (acc : FastestLapSectors.FastestSectors),
      ((drivers.foldl (FastestLapSectors.flsStep laps) acc).entry s).time
        = (FastestLapSectors.flsValues laps drivers s).foldl minStep ((acc.entry s).time) := by
  intro drivers
  induction drivers with
  | nil => intro acc; rfl
  | cons d ds ih =>
    intro acc
    rw [List.foldl_cons]
    show _ = ((d :: ds).filterMap
      (fun d => (pick_fastest (pick_drivers laps d)).bind s.val)).foldl
        minStep ((acc.entry s).time)
    rw [List.filterMap_cons]
    cases hpf : pick_fastest (pick_drivers laps d) with
    | none =>
      have hstep : FastestLapSectors.flsStep laps acc d = acc := by
        unfold FastestLapSectors.flsStep
        rw [hpf]
      rw [hstep]
      simpa [FastestLapSectors.flsValues] using ih acc
    | some fl =>
      have hentry := flsStep_entry_some laps acc d s fl hpf
      cases hv : s.val fl with
      | none =>
        have : ((FastestLapSectors.flsStep laps acc d).entry s).time
            = (acc.entry s).time := by
          rw [hentry, hv, updateFastest_none]
        simp only [hpf, Option.some_bind, hv]
        rw [ih (FastestLapSectors.flsStep laps acc d), this]
        rfl
      | some v =>
        have : ((FastestLapSectors.flsStep laps acc d).entry s).time
            = minStep ((acc.entry s).time) v := by
          rw [hentry, hv, updateFastest_some_time]
        simp only [hpf, Option.some_bind, hv]
        rw [ih (FastestLapSectors.flsStep laps acc d), this, List.foldl_cons]
        rfl

/-- The sector entry of `get_fastest_lap_sectors` holds the minimum of the
fastest-lap sector values of the included drivers. -/
theorem gfls_entry_time (laps : List Lap) (drivers : List String) (s : Sector) :
    ((FastestLapSectors.get_fastest_lap_sectors laps drivers).entry s).time
      = listMinQ (FastestLapSectors.flsValues laps drivers s) := by
  have h := foldl_flsStep_time laps s drivers
    ⟨⟨none, "VER"⟩, ⟨none, "VER"⟩, ⟨none, "VER"⟩⟩
  have hinit : ((⟨⟨none, "VER"⟩, ⟨none, "VER"⟩, ⟨none, "VER"⟩⟩ :
      FastestLapSectors.FastestSectors).entry s).time = none := by
    cases s <;> rfl
  rw [hinit] at h
  exact h

/-- Sorting by time does not change the rows of a table. -/
theorem mem_sortByTime {rows : List FastestLapSectors.DeltaRow}
    {r : FastestLapSectors.DeltaRow} :
    r ∈ FastestLapSectors.sortByTime rows ↔ r ∈ rows := by
  unfold FastestLapSectors.sortByTime
  exact List.mem_insertionSort FastestLapSectors.rowTimeLE

/-- Valid sector values of one driver are valid sector values of the
session. -/
theorem mem_sectorValues_pick {laps : List Lap} {d : String}
    {sec : Lap → Option ℚ} {x : ℚ}
    (h : x ∈ sectorValues (pick_drivers laps d) sec) :
    x ∈ sectorValues laps sec := by
  rcases List.mem_filterMap.1 h with ⟨l, hl, hx⟩
  exact List.mem_filterMap.2 ⟨l, List.mem_of_mem_filter hl, hx⟩

/-- Per-sector table of `get_driver_deltas`, written through the sector
projections. -/
theorem gdd_tbl (laps : List Lap) (drivers : List String)
    (fs : FastestLapSectors.FastestSectors) (s : Sector) :
    (FastestLapSectors.get_driver_deltas laps drivers fs).tbl s
      = FastestLapSectors.sortByTime
          (FastestLapSectors.deltaRows laps drivers (fs.entry s) s.val) := by
  cases s <;> rfl

/-- Per-sector table of `get_fastest_sectors`, written through the sector
projections. -/
theorem gfs_tbl (laps : List Lap) (drivers : List String) (s : Sector) :
    (FastestLapSectors.get_fastest_sectors laps drivers).tbl s
      = FastestLapSectors.sortByTime
          (FastestLapSectors.fastestSectorRows laps drivers
            (listMinQ (sectorValues laps s.val)) s.val) := by
  cases s <;> rfl

/-- C1 as amended: in every sector table of both functions no present
delta is negative; the minimum delta is exactly 0 in the
`get_driver_deltas` table whenever its reference was computed by
`get_fastest_lap_sectors` over the same session and drivers and some
included driver has a valid time for the sector, and in the
`get_fastest_sectors` table whenever some selected driver attains the
session-wide sector minimum (the reference of `get_fastest_sectors` is the
minimum over the whole session, not over the selected drivers). -/
theorem C1_deltas (laps : List Lap) (drivers : List String) (s : Sector) :
    (∀ row ∈ (FastestLapSectors.get_driver_deltas laps drivers
        (FastestLapSectors.get_fastest_lap_sectors laps drivers)).tbl s,
      ∀ δ, row.delta = some δ → 0 ≤ δ) ∧
    (FastestLapSectors.flsValues laps drivers s ≠ [] →
      ∃ row ∈ (FastestLapSectors.get_driver_deltas laps drivers
        (FastestLapSectors.get_fastest_lap_sectors laps drivers)).tbl s,
        row.delta = some 0) ∧
    (∀ row ∈ (FastestLapSectors.get_fastest_sectors laps drivers).tbl s,
      ∀ δ, row.delta = some δ → 0 ≤ δ) ∧
    ((∃ d ∈ drivers,
        sectorValues (pick_drivers laps d) s.val ≠ [] ∧
        listMinQ (sectorValues (pick_drivers laps d) s.val)
          = listMinQ (sectorValues laps s.val)) →
      ∃ row ∈ (FastestLapSectors.get_fastest_sectors laps drivers).tbl s,
        row.delta = some 0) := by
  refine ⟨?_, ?_, ?_, ?_⟩
  · intro row hrow δ hδ
    rw [gdd_tbl, mem_sortByTime] at hrow
    rcases List.mem_filterMap.1 hrow with ⟨d, hd, hf⟩
    cases hpf : pick_fastest (pick_drivers laps d) with
    | none => rw [hpf] at hf; cases hf
    | some fl =>
      rw [hpf] at hf
      cases hf
      cases hv : s.val fl with
      | none => simp [hv, osub] at hδ
      | some t =>
        cases hft : ((FastestLapSectors.get_fastest_lap_sectors laps
            drivers).entry s).time with
        | none => simp [hv, hft, osub] at hδ
        | some f =>
          simp only [hv, hft, osub, Option.some_inj] at hδ
          have ht : t ∈ FastestLapSectors.flsValues laps drivers s :=
            List.mem_filterMap.2 ⟨d, hd, by rw [hpf]; simpa using hv⟩
          have hmin := (gfls_entry_time laps drivers s) ▸ hft
          have hle := (listMinQ_spec hmin).2 t ht
          rw [← hδ]
          linarith
  · intro hne
    obtain ⟨m, hmin, hmem, _⟩ := listMinQ_ne_nil hne
    rcases List.mem_filterMap.1 hmem with ⟨d, hd, hbind⟩
    cases hpf : pick_fastest (pick_drivers laps d) with
    | none => rw [hpf] at hbind; cases hbind
    | some fl =>
      rw [hpf, Option.some_bind] at hbind
      refine ⟨{ driver := d, time := s.val fl
                delta := osub (s.val fl)
                  (((FastestLapSectors.get_fastest_lap_sectors laps
                    drivers).entry s).time)
                tyre := fl.compound }, ?_, ?_⟩
      · rw [gdd_tbl, mem_sortByTime]
        exact List.mem_filterMap.2 ⟨d, hd, by rw [hpf]⟩
      · rw [hbind, gfls_entry_time, hmin]
        simp [osub]
  · intro row hrow δ hδ
    rw [gfs_tbl, mem_sortByTime] at hrow
    rcases List.mem_filterMap.1 hrow with ⟨d, hd, hf⟩
    cases hdl : (pick_drivers laps d).isEmpty with
    | true => simp [hdl] at hf
    | false =>
      simp only [hdl, Bool.false_eq_true, if_false] at hf
      cases hmc : minWithCompound (pick_drivers laps d) s.val with
      | none => rw [hmc] at hf; cases hf
      | some p =>
        rcases p with ⟨t, c⟩
        rw [hmc] at hf
        cases hf
        cases hfast : listMinQ (sectorValues laps s.val) with
        | none => simp [hfast, osub] at hδ
        | some f =>
          simp only [hfast, osub, Option.some_inj] at hδ
          have hfst := minWithCompound_fst (pick_drivers laps d) s.val
          rw [hmc] at hfst
          simp only [Option.map_some'] at hfst
          have htd := listMinQ_spec hfst.symm
          have ht : t ∈ sectorValues laps s.val :=
            mem_sectorValues_pick htd.1
          have hle := (listMinQ_spec hfast).2 t ht
          rw [← hδ]
          linarith
  · rintro ⟨d, hd, hneval, heqmin⟩
    obtain ⟨m, hmin, _, _⟩ := listMinQ_ne_nil hneval
    have hfast : listMinQ (sectorValues laps s.val) = some m := by
      rw [← heqmin]
      exact hmin
    have hfst := minWithCompound_fst (pick_drivers laps d) s.val
    rw [hmin] at hfst
    cases hmc : minWithCompound (pick_drivers laps d) s.val with
    | none => rw [hmc] at hfst; cases hfst
    | some p =>
      rw [hmc] at hfst
      rcases p with ⟨t, c⟩
      simp only [Option.map_some', Option.some_inj] at hfst
      have hdl : (pick_drivers laps d).isEmpty = false := by
        cases hdl0 : pick_drivers laps d with
        | nil =>
          exact absurd (by simp [sectorValues, hdl0]) hneval
        | cons a l => rfl
      refine ⟨{ driver := d, time := some t
                delta := osub (some t) (listMinQ (sectorValues laps s.val))
                tyre := c }, ?_, ?_⟩
      · rw [gfs_tbl, mem_sortByTime]
        refine List.mem_filterMap.2 ⟨d, hd, ?_⟩
        simp [hdl, hmc]
      · rw [hfast]
        simp only [osub]
        rw [hfst]
        simp [sub_self]

/-- Counterexample to C1 as stated: in `get_fastest_sectors` the delta
reference is the session-wide sector minimum, so when the selected driver
set omits the session-fastest driver (here only BOT is selected while VER
holds the fastest first sector) the resulting non-empty sector table has
minimum delta 1, not 0. -/
theorem C1_counterexample :
    (FastestLapSectors.get_fastest_sectors lapsTwoS1 [("BOT")]).t1
      = [⟨"BOT", some 11, some 1, "SOFT"⟩] ∧
    ∀ row ∈ (FastestLapSectors.get_fastest_sectors lapsTwoS1 [("BOT")]).t1,
      row.delta ≠ some 0 := by
  with_unfolding_all decide

/-- Witness for C1 as amended, on the two-driver session with both
drivers selected. -/
theorem C1_deltas_witness :
    (∀ row ∈ (FastestLapSectors.get_driver_deltas lapsTwoS1
        [("VER"), ("BOT")]
        (FastestLapSectors.get_fastest_lap_sectors lapsTwoS1
          [("VER"), ("BOT")])).tbl .s1,
      ∀ δ, row.delta = some δ → 0 ≤ δ) ∧
    (∃ row ∈ (FastestLapSectors.get_driver_deltas lapsTwoS1
        [("VER"), ("BOT")]
        (FastestLapSectors.get_fastest_lap_sectors lapsTwoS1
          [("VER"), ("BOT")])).tbl .s1, row.delta = some 0) ∧
    (∀ row ∈ (FastestLapSectors.get_fastest_sectors lapsTwoS1
        [("VER"), ("BOT")]).tbl .s1,
      ∀ δ, row.delta = some δ → 0 ≤ δ) ∧
    (∃ row ∈ (FastestLapSectors.get_fastest_sectors lapsTwoS1
        [("VER"), ("BOT")]).tbl .s1, row.delta = some 0) := by
  have h := C1_deltas lapsTwoS1 [("VER"), ("BOT")] .s1
  exact ⟨h.1, h.2.1 (by decide), h.2.2.1,
    h.2.2.2 ⟨"VER", by decide, by decide, by decide⟩⟩

/-- Sorting by time produces a table sorted by the time key. -/
theorem sorted_sortByTime (rows : List FastestLapSectors.DeltaRow) :
    List.Sorted FastestLapSectors.rowTimeLE (FastestLapSectors.sortByTime rows) :=
  List.sorted_insertionSort FastestLapSectors.rowTimeLE rows

/-- A mapped `Except` yielding a success comes from a success. -/
theorem exceptMap_ok {ε α β : Type} {e : Except ε α} {f : α → β} {b : β}
    (h : e.map f = .ok b) : ∃ a, e = .ok a ∧ f a = b := by
  cases e with
  | error err => simp [Except.map] at h
  | ok a =>
    refine ⟨a, rfl, ?_⟩
    simpa [Except.map] using h

/-- Counterexample to C9 as stated: two rows tied on the sort key keep
their insertion order, so permuting the order in which the records are
inserted permutes the (still time-sorted) output table: the output row
order does depend on the insertion order. -/
theorem C9_counterexample :
    (FastestLapSectors.get_driver_deltas lapsTieS1 [("VER"), ("BOT")]
        (FastestLapSectors.get_fastest_lap_sectors lapsTieS1
          [("VER"), ("BOT")])).t1
      = [⟨"VER", some 10, some 0, "SOFT"⟩, ⟨"BOT", some 10, some 0, "SOFT"⟩] ∧
    (FastestLapSectors.get_driver_deltas lapsTieS1 [("BOT"), ("VER")]
        (FastestLapSectors.get_fastest_lap_sectors lapsTieS1
          [("BOT"), ("VER")])).t1
      = [⟨"BOT", some 10, some 0, "SOFT"⟩, ⟨"VER", some 10, some 0, "SOFT"⟩] ∧
    (FastestLapSectors.get_driver_deltas lapsTieS1 [("VER"), ("BOT")]
        (FastestLapSectors.get_fastest_lap_sectors lapsTieS1
          [("VER"), ("BOT")])).t1
      ≠ (FastestLapSectors.get_driver_deltas lapsTieS1 [("BOT"), ("VER")]
        (FastestLapSectors.get_fastest_lap_sectors lapsTieS1
          [("BOT"), ("VER")])).t1 := by
  with_unfolding_all decide

/-- C9 as amended: every sector table is sorted non-decreasing in its one
explicit key (Time for the `get_driver_deltas` and `get_fastest_sectors`
tables and for the time table of `get_fastest_sector_data`, Delta for its
delta table); permuting the record insertion order permutes the table and
leaves the sequence of key values unchanged, but with tied keys the full
row order follows the insertion order (see the counterexample). -/
theorem C9_order (laps : List Lap) (drivers : List String)
    (fs : FastestLapSectors.FastestSectors) (s : Sector) :
    List.Sorted FastestLapSectors.rowTimeLE
      ((FastestLapSectors.get_driver_deltas laps drivers fs).tbl s) ∧
    List.Sorted FastestLapSectors.rowTimeLE
      ((FastestLapSectors.get_fastest_sectors laps drivers).tbl s) ∧
    (∀ tt dt, SectorsComparisons.get_fastest_sector_data laps drivers s
        = .ok (tt, dt) →
      List.Sorted SectorsComparisons.scTimeLE tt ∧
      List.Sorted SectorsComparisons.scDeltaLE dt) ∧
    (∀ drivers2, drivers.Perm drivers2 →
      List.Perm ((FastestLapSectors.get_driver_deltas laps drivers fs).tbl s)
        ((FastestLapSectors.get_driver_deltas laps drivers2 fs).tbl s) ∧
      ((FastestLapSectors.get_driver_deltas laps drivers fs).tbl s).map
          (fun r => r.time)
        = ((FastestLapSectors.get_driver_deltas laps drivers2 fs).tbl s).map
          (fun r => r.time)) := by
  refine ⟨?_, ?_, ?_, ?_⟩
  · rw [gdd_tbl]
    exact sorted_sortByTime _
  · rw [gfs_tbl]
    exact sorted_sortByTime _
  · intro tt dt h
    unfold SectorsComparisons.get_fastest_sector_data at h
    rcases exceptMap_ok h with ⟨rows, _, hf⟩
    rw [Prod.mk.injEq] at hf
    obtain ⟨h1, h2⟩ := hf
    exact ⟨h1 ▸ List.sorted_insertionSort SectorsComparisons.scTimeLE rows,
      h2 ▸ List.sorted_insertionSort SectorsComparisons.scDeltaLE rows⟩
  · intro drivers2 hperm
    have hrows : (FastestLapSectors.deltaRows laps drivers (fs.entry s)
        s.val).Perm
        (FastestLapSectors.deltaRows laps drivers2 (fs.entry s) s.val) := by
      unfold FastestLapSectors.deltaRows
      exact hperm.filterMap _
    have ht : ((FastestLapSectors.get_driver_deltas laps drivers fs).tbl
        s).Perm
        ((FastestLapSectors.get_driver_deltas laps drivers2 fs).tbl s) := by
      rw [gdd_tbl, gdd_tbl]
      exact ((List.perm_insertionSort FastestLapSectors.rowTimeLE _).trans
        hrows).trans
        (List.perm_insertionSort FastestLapSectors.rowTimeLE _).symm
    refine ⟨ht, ?_⟩
    have hs1 : List.Sorted otLE
        (((FastestLapSectors.get_driver_deltas laps drivers fs).tbl s).map
          (fun r => r.time)) := by
      refine List.Pairwise.map _ (fun a b hab => hab) ?_
      rw [gdd_tbl]
      exact sorted_sortByTime _
    have hs2 : List.Sorted otLE
        (((FastestLapSectors.get_driver_deltas laps drivers2 fs).tbl s).map
          (fun r => r.time)) := by
      refine List.Pairwise.map _ (fun a b hab => hab) ?_
      rw [gdd_tbl]
      exact sorted_sortByTime _
    exact List.eq_of_perm_of_sorted (ht.map _) hs1 hs2

/-- Witness for C9 on the two-driver session without ties. -/
theorem C9_order_witness :
    (List.Sorted SectorsComparisons.scTimeLE
        [⟨"VER", 10, "SOFT", 0⟩, ⟨"BOT", 11, "SOFT", 1⟩] ∧
      List.Sorted SectorsComparisons.scDeltaLE
        [⟨"VER", 10, "SOFT", 0⟩, ⟨"BOT", 11, "SOFT", 1⟩]) ∧
    List.Perm
      ((FastestLapSectors.get_driver_deltas lapsTwoS1 [("VER"), ("BOT")]
        (FastestLapSectors.get_fastest_lap_sectors lapsTwoS1
          [("VER"), ("BOT")])).tbl .s1)
      ((FastestLapSectors.get_driver_deltas lapsTwoS1 [("BOT"), ("VER")]
        (FastestLapSectors.get_fastest_lap_sectors lapsTwoS1
          [("VER"), ("BOT")])).tbl .s1) ∧
    ((FastestLapSectors.get_driver_deltas lapsTwoS1 [("VER"), ("BOT")]
        (FastestLapSectors.get_fastest_lap_sectors lapsTwoS1
          [("VER"), ("BOT")])).tbl .s1).map (fun r => r.time)
      = ((FastestLapSectors.get_driver_deltas lapsTwoS1 [("BOT"), ("VER")]
        (FastestLapSectors.get_fastest_lap_sectors lapsTwoS1
          [("VER"), ("BOT")])).tbl .s1).map (fun r => r.time) := by
  have h := C9_order lapsTwoS1 [("VER"), ("BOT")]
    (FastestLapSectors.get_fastest_lap_sectors lapsTwoS1 [("VER"), ("BOT")]) .s1
  exact ⟨h.2.2.1 _ _ (by with_unfolding_all rfl),
    h.2.2.2 [("BOT"), ("VER")] (by decide)⟩

/-- C8 as evaluated on the failing input: `get_driver_fastest_sector`
returns the `(None, None)` tuple for a driver without a valid time in the
sector (contradicting its declared dict return), and
`get_fastest_sector_data` appends that tuple unconditionally, so instead
of the claimed exclusion of the driver the sector table is never built:
the construction (or the subsequent sort by the then-missing Time column)
raises. -/
theorem C8_sector_table_bug :
    SectorsComparisons.get_driver_fastest_sector lapsMissingS1 ("BOT")
        (Sector.val .s1) (SectorsComparisons.sc_fastest_sector lapsMissingS1 .s1)
      = .nonePair ∧
    SectorsComparisons.get_fastest_sector_data lapsMissingS1
        [("VER"), ("BOT")] .s1
      = .error "record list contains (None, None) tuple entries: frame construction or the sort by Time raises" :=
  ⟨by with_unfolding_all rfl, by with_unfolding_all rfl⟩

end F1
